import Mathlib

/-!
Verification of the amqp10-rpc specification against a shallow embedding of
the repository's source (src/lib/rpc-server.js, src/lib/errors.js, and the
current RpcClient revision in src/unnamed/part_000).

JavaScript values are modelled by the inductive `JsValue`; JS objects are
association lists of string keys, and the distinction between `undefined`
and `null` is kept because the dispatcher's guards test both.  Stateful
calls are modelled as functions producing an explicit, chronologically
ordered list of transport actions (settlement dispositions, sends, log
calls).  External collaborators (the host JSON parser, the Ajv schema
compiler) are passed in as function parameters, so every theorem below is
quantified over their behaviour.
-/

set_option autoImplicit false

namespace AmqpRpc

/-- Model of a JavaScript value as delivered by the amqp10 transport:
`undefined`, `null`, booleans, (integer) numbers, strings, arrays and plain
objects.  Object fields are kept in insertion order, as JS does. -/
inductive JsValue where
  | undefined
  | null
  | bool (b : Bool)
  | num (n : Int)
  | str (s : String)
  | arr (items : List JsValue)
  | obj (fields : List (String × JsValue))

/-- JS truthiness: `undefined`, `null`, `false`, `0` and the empty string are
falsy, everything else (including every array and object) is truthy. -/
def JsValue.truthy : JsValue → Bool
  | .undefined => false
  | .null => false
  | .bool b => b
  | .num n => n != 0
  | .str s => s != ""
  | .arr _ => true
  | .obj _ => true

/-- JS `a || b`: the left operand when truthy, otherwise the right one. -/
def jsOr (a b : JsValue) : JsValue :=
  if a.truthy then a else b

/-- JS `v.hasOwnProperty(key)`: only plain objects carry the (string-keyed,
non-index) own properties the dispatcher tests for; primitives and arrays
answer `false` for keys such as "method", "error" or "body". -/
def JsValue.hasOwn : JsValue → String → Bool
  | .obj fields, key => fields.any (fun f => f.1 == key)
  | _, _ => false

/-- JS member access `v[key]` for the string keys the dispatcher reads:
lookup in a plain object (first matching field), `undefined` otherwise. -/
def JsValue.get : JsValue → String → JsValue
  | .obj fields, key =>
      match fields.find? (fun f => f.1 == key) with
      | some f => f.2
      | none => .undefined
  | _, _ => .undefined

/-- JS property assignment on a string-keyed field list (used both for
object fields and for the registries backed by plain JS objects): overwrite
in place when the key exists, append otherwise. -/
def setField {α : Type} : List (String × α) → String → α → List (String × α)
  | [], key, v => [(key, v)]
  | f :: rest, key, v =>
      if f.1 == key then (key, v) :: rest else f :: setField rest key v

/-- JS `Array.isArray`. -/
def JsValue.isArray : JsValue → Bool
  | .arr _ => true
  | _ => false

/-- JS strict comparison `v === undefined`. -/
def JsValue.isUndefined : JsValue → Bool
  | .undefined => true
  | _ => false

/-- JS strict comparison `v === null`. -/
def JsValue.isNull : JsValue → Bool
  | .null => true
  | _ => false

/-- JS strict comparison `v === false`. -/
def JsValue.isFalseLit : JsValue → Bool
  | .bool b => !b
  | _ => false

/-- JS strict comparison `v === true`. -/
def JsValue.isTrueLit : JsValue → Bool
  | .bool b => b
  | _ => false

/-- JS strict comparison of a value against a number literal. -/
def JsValue.eqNum : JsValue → Int → Bool
  | .num m, n => m == n
  | _, _ => false

/-- The predicate behind bluebird's `.error(handler)`: a rejection reaches
the handler only when it is operational, i.e. an `OperationalError` instance
or a value whose `isOperational` property is strictly `true` (bluebird's
`OperationalError` constructor itself assigns `isOperational = true`, so the
property test subsumes the instanceof test in this value model; a `null` or
`undefined` rejection has no properties and is never operational).  The
ProtocolError family of src/lib/errors.js inherits from neither `Error` nor
`OperationalError` and never sets `isOperational`, so every error
`_processRequest` throws is non-operational and skips `.error`. -/
def isOperationalRejection (e : JsValue) : Bool :=
  (e.get "isOperational").isTrueLit

/-- JS string coercion `String(v)` at bounded recursion depth: scalars print
as JS prints them, an array joins its elements with "," (`null` and
`undefined` elements become empty, everything else is coerced recursively),
a plain object prints its `Object.prototype.toString` tag.  The fuel only
bounds how many nested array levels the recursion may cross. -/
def jsStringFuel : Nat → JsValue → String
  | fuel, v =>
    match v with
    | .str s => s
    | .num n => toString n
    | .bool b => if b then "true" else "false"
    | .null => "null"
    | .undefined => "undefined"
    | .obj _ => "[object Object]"
    | .arr items =>
        match fuel with
        | 0 => ""
        | fuel' + 1 =>
            String.intercalate ","
              (items.map (fun el =>
                match el with
                | .null => ""
                | .undefined => ""
                | el => jsStringFuel fuel' el))

mutual
/-- Array-nesting depth of a value, the fuel `toKey` hands to
`jsStringFuel`: enough levels that the fuel bound is never reached. -/
def jsNestingDepth : JsValue → Nat
  | .arr items => jsNestingDepthList items + 1
  | _ => 1

/-- Greatest array-nesting depth among a list of values. -/
def jsNestingDepthList : List JsValue → Nat
  | [] => 0
  | v :: rest => max (jsNestingDepth v) (jsNestingDepthList rest)
end

/-- JS string coercion as the dispatcher uses it for method names, registry
keys and message concatenation: `jsStringFuel` fuelled by the value's own
array-nesting depth, so the fuel bound is never reached. -/
def JsValue.toKey (v : JsValue) : String :=
  jsStringFuel (jsNestingDepth v) v

/-! JSON-RPC error codes, from src/lib/errors.js (`errors.ErrorCode`). -/

def ErrorCode.ParseError : Int := -32700
def ErrorCode.InvalidRequest : Int := -32600
def ErrorCode.MethodNotFound : Int := -32601
def ErrorCode.InvalidParams : Int := -32602
def ErrorCode.InternalError : Int := -32603

/-- Embeds `errors.ProtocolError` (src/lib/errors.js lines 92-96) as the
object its constructor produces: own properties `code` and `message`, plus
`data` only when the supplied data is truthy (`if (!!data) this.data = data`). -/
def mkProtocolError (code : Int) (message : String) (data : JsValue) : JsValue :=
  .obj ([("code", .num code), ("message", .str message)] ++
    (if data.truthy then [("data", data)] else []))

/-- The `data.source` payload attached by `_processRequest` to the protocol
errors it throws: an object holding the replyTo and the offending request. -/
def sourceData (replyTo request : JsValue) : JsValue :=
  .obj [("source", .obj [("replyTo", replyTo), ("request", request)])]

/-! RpcServer (src/lib/rpc-server.js, first revision in the file, the one the
spec and the claims reference). -/

/-- One registered method (`methodDefinition`, rpc-server.js lines 70-96):
the bound handler, its extracted parameter names, an optional per-method
interceptor and an optional compiled validator.  The handler either returns
a value or throws one (`Except.error`); interceptors return an arbitrary JS
value that the pipeline compares against `false`.  A compiled Ajv validator
returns its boolean verdict together with the value of its `errors` property
after the call (`null` on success, the violation list on failure); its
in-place type coercion is not modelled (no claim below binds a validator
whose coercion matters).  The receiver argument of the JS callbacks is a
transport handle with no bearing on the dispatcher's decisions and is
omitted from the modelled signatures. -/
structure MethodDefn where
  method : List JsValue → Except JsValue JsValue
  parameters : List String
  interceptor : Option (JsValue → List JsValue → JsValue) := none
  validate : Option (JsValue → Bool × JsValue) := none

/-- Server configuration (the `RpcServer` constructor, rpc-server.js lines
8-31): the method registry, the `ignoreUnknownMethods` flag and the two
optional server-wide interceptors. -/
structure ServerCfg where
  methodHandlers : List (String × MethodDefn)
  ignoreUnknownMethods : Bool := false
  interceptor : Option (JsValue → JsValue → JsValue) := none
  completionInterceptor : Option (JsValue → JsValue → JsValue → JsValue) := none

/-- Observable transport/logging actions of the server on one message, in
chronological order: settlement dispositions, reply sends (address, body,
optional correlationId property) and logger calls. -/
inductive ServerAction where
  | accept
  | modifyUndeliverable
  | send (address : JsValue) (body : JsValue) (correlationId : Option JsValue)
  | logMissing (property : String)
  | logErrorResponse (response : JsValue)

/-- Embeds `RpcServer.prototype._respond` (rpc-server.js lines 127-144).
The reply-routing guard on lines 134-135 reads, verbatim,
`replyTo === null || replyTo === undefined && correlationId === null ||
correlationId === undefined`; JS gives `&&` a higher precedence than `||`,
so the embedded condition groups the middle conjunction and nothing else. -/
def respond (cfg : ServerCfg) (replyTo correlationId response : JsValue) :
    List ServerAction :=
  if response.isNull || response.isUndefined then []
  else if response.hasOwn "error" &&
      ((response.get "error").get "code").eqNum ErrorCode.MethodNotFound &&
      cfg.ignoreUnknownMethods then []
  else if replyTo.isNull || (replyTo.isUndefined && correlationId.isNull) ||
      correlationId.isUndefined then
    if response.hasOwn "error" then [.logErrorResponse response] else []
  else
    [.send replyTo response
      (if correlationId.truthy then some correlationId else none)]

/-- Embeds `formatError` (rpc-server.js lines 146-154): default the code to
InternalError, the message to "Internal error" and the data to the thrown
value itself, then wrap in an `error` envelope. -/
def formatError (error : JsValue) : JsValue :=
  let error := jsOr error (.obj [])
  .obj [("error", .obj
    [("code", if error.hasOwn "code" then error.get "code"
              else .num ErrorCode.InternalError),
     ("message", if error.hasOwn "message" then error.get "message"
                 else .str "Internal error"),
     ("data", if error.hasOwn "data" then error.get "data" else error)])]

/-- Embeds `formatResponse` (rpc-server.js lines 156-162): a truthy value
owning a `method` property passes through verbatim, anything else is wrapped
as a result, with `undefined` replaced by `null`. -/
def formatResponse (response : JsValue) : JsValue :=
  if response.truthy && response.hasOwn "method" then response
  else .obj [("result", if response.isUndefined then .null else response)]

/-- Embeds the positional-to-named conversion in `_processRequest`
(rpc-server.js lines 270-275):
`params = methodHandler.parameters.reduce(function(obj, p, idx) \x7b
  obj[p] = idx > params.length ? null : params[idx]; return obj; \x7d, \x7b\x7d)`.
Indexing past the end of a JS array yields `undefined`, hence `getD` with
default `undefined`. -/
def convertPositionalParams (parameters : List String) (params : List JsValue) :
    JsValue :=
  .obj (parameters.enum.foldl
    (fun fields ip =>
      setField fields ip.2
        (if ip.1 > params.length then .null else params.getD ip.1 .undefined))
    [])

/-- Embeds `RpcServer.prototype._processRequest` (rpc-server.js lines
254-289).  Throws (as `Except.error`) the InvalidRequest, MethodNotFound and
InvalidParams protocol errors; on success returns the resolved method
definition together with the positional argument list.  The InvalidParams
data carries both the request source and `messages`, the validator's error
list after the failed call. -/
def processRequest (cfg : ServerCfg) (replyTo correlationId request : JsValue) :
    Except JsValue (MethodDefn × List JsValue) := do
  let _ := correlationId
  if !(request.hasOwn "method") then
    throw (mkProtocolError ErrorCode.InvalidRequest
      "Missing required property: method" (sourceData replyTo request))
  let method := request.get "method"
  let params := jsOr (request.get "params") (.arr [])
  match cfg.methodHandlers.find? (fun h => h.1 == method.toKey) with
  | none =>
      throw (mkProtocolError ErrorCode.MethodNotFound
        ("No such method: " ++ method.toKey) (sourceData replyTo request))
  | some (_, methodHandler) =>
      let params :=
        match params with
        | .arr items => convertPositionalParams methodHandler.parameters items
        | _ => params
      match methodHandler.validate with
      | some validate =>
          let result := validate params
          if !result.1 then
            throw (mkProtocolError ErrorCode.InvalidParams "Validation Error"
              (.obj [("source", .obj [("replyTo", replyTo), ("request", request)]),
                ("messages", result.2)]))
      | none => pure ()
      let args := methodHandler.parameters.map (fun p => params.get p)
      return (methodHandler, args)

/-- The body of the `Promise.try` on the single-request path (rpc-server.js
lines 220-233): resolve the request, consult the per-method interceptor —
a strict-`false` return resolves the promise with `undefined` (the bare
`return;`) — and otherwise invoke the handler. -/
def singleTry (cfg : ServerCfg) (message replyTo correlationId request : JsValue) :
    Except JsValue JsValue := do
  let (methodHandler, args) ← processRequest cfg replyTo correlationId request
  match methodHandler.interceptor with
  | some f =>
      if (f message args).isFalseLit then return .undefined
      else methodHandler.method args
  | none => methodHandler.method args

/-- The continuation chained after the single-path promise (rpc-server.js
lines 235-251): format the outcome, run the optional completion interceptor
(a strict-`false` return stops before settling or replying), then accept the
message and reply.  The `.error` handler additionally accepts the message
before the chained continuation runs, hence the `pre` actions. -/
def afterSingle (cfg : ServerCfg) (message replyTo correlationId request response : JsValue)
    (pre : List ServerAction) : List ServerAction :=
  match cfg.completionInterceptor with
  | some f =>
      if (f message request response).isFalseLit then pre
      else pre ++ [.accept] ++ respond cfg replyTo correlationId response
  | none => pre ++ [.accept] ++ respond cfg replyTo correlationId response

/-- Processing of one single (non-batch) request, combining `singleTry` with
the `.then`/`.error` continuations.  Bluebird's `.error` catches only
operational rejections, so a thrown protocol error (or any other
non-operational rejection) skips the `.error` handler and the final `.then`
alike: the chain simply rejects, with no settlement and no reply. -/
def processSingle (cfg : ServerCfg) (message replyTo correlationId request : JsValue) :
    List ServerAction :=
  match singleTry cfg message replyTo correlationId request with
  | .ok v =>
      afterSingle cfg message replyTo correlationId request (formatResponse v) []
  | .error e =>
      if isOperationalRejection e then
        afterSingle cfg message replyTo correlationId request (formatError e) [.accept]
      else []

/-- One reducer step of the batch path (rpc-server.js lines 196-207):
resolve and invoke the item — per-method interceptors are not consulted in
batch mode — and format the fulfilled value; the step's `.error` formats a
rejection only when it is operational, so a non-operational rejection (every
error `_processRequest` throws) propagates out of the step. -/
def batchStep (cfg : ServerCfg) (replyTo correlationId r : JsValue) :
    Except JsValue JsValue :=
  match (do
      let (methodHandler, args) ← processRequest cfg replyTo correlationId r
      methodHandler.method args) with
  | .ok v => .ok (formatResponse v)
  | .error e =>
      if isOperationalRejection e then .ok (formatError e) else .error e

/-- Embeds the `Promise.reduce(request, ..., [])` accumulation (rpc-server.js
lines 196-208): bluebird's reduce walks the items one at a time from the
left, each successful step pushing its response onto the accumulator; the
first rejection that escapes a step rejects the whole accumulation, so the
remaining items are never invoked. -/
def batchResponses (cfg : ServerCfg) (replyTo correlationId : JsValue)
    (items : List JsValue) : Except JsValue (List JsValue) :=
  items.foldlM (fun result r =>
    (batchStep cfg replyTo correlationId r).map (fun resp => result ++ [resp])) []

/-- Embeds `RpcServer.prototype._processMessage` (rpc-server.js lines
164-252) as the chronological action list produced for one received message.
The host JSON parser is an explicit parameter (`jsonParse`), returning either
the decoded value or the thrown error's message. -/
def processMessage (cfg : ServerCfg) (jsonParse : String → Except String JsValue)
    (message : JsValue) : List ServerAction :=
  if !(message.hasOwn "body") then [.logMissing "body", .modifyUndeliverable]
  else
    let props := jsOr (message.get "properties") (.obj [])
    let replyTo := props.get "replyTo"
    let correlationId := props.get "correlationId"
    let body := message.get "body"
    let decoded : Except (String × JsValue) JsValue :=
      match body with
      | .str s =>
          match jsonParse s with
          | .ok v => .ok v
          | .error errMessage => .error (errMessage, body)
      | _ => .ok body
    match decoded with
    | .error (errMessage, original) =>
        respond cfg replyTo correlationId
          (.obj [("error",
            mkProtocolError ErrorCode.ParseError errMessage original)])
    | .ok request =>
        let globalShortCircuit :=
          match cfg.interceptor with
          | some f => (f message request).isFalseLit
          | none => false
        if globalShortCircuit then []
        else
          match request with
          | .arr items =>
              match batchResponses cfg replyTo correlationId items with
              | .error _ => [.accept]
              | .ok responses =>
                  let response := JsValue.arr responses
                  let completionShortCircuit :=
                    match cfg.completionInterceptor with
                    | some f => (f message request response).isFalseLit
                    | none => false
                  if completionShortCircuit then [.accept]
                  else .accept :: respond cfg replyTo correlationId response
          | _ => processSingle cfg message replyTo correlationId request

/-! Method binding (`RpcServer.prototype.bind`, rpc-server.js lines 41-103). -/

/-- Exceptions thrown by the host runtime, e.g. by calling `Object.keys` on
`undefined` or `null`. -/
inductive JsThrow where
  | typeError (message : String)
deriving DecidableEq

/-- JS `Object.keys(v)`: throws a TypeError on `undefined`/`null` (ToObject
coercion fails), returns the own enumerable keys of objects, index keys for
arrays and strings, and nothing for the remaining primitives. -/
def objectOwnKeys : JsValue → Except JsThrow (List String)
  | .undefined => .error (.typeError "Cannot convert undefined or null to object")
  | .null => .error (.typeError "Cannot convert undefined or null to object")
  | .obj fields => .ok (fields.map (fun f => f.1))
  | .arr items => .ok ((List.range items.length).map toString)
  | .str s => .ok ((List.range s.length).map toString)
  | .bool _ => .ok []
  | .num _ => .ok []

/-- JS `u.isPlainObject` (src/lib/utilities.js lines 164-166): the
`Object.prototype.toString` tag is "[object Object]" exactly for plain
objects in this value model. -/
def isPlainObject : JsValue → Bool
  | .obj _ => true
  | _ => false

/-- The errors `bind` can raise, from src/lib/errors.js: the three invalid
binding errors plus DuplicateMethod, and a host TypeError for the
`Object.keys` corner. -/
inductive BindError where
  | invalidMethodName
  | invalidMethodDefinition (message : String)
  | invalidValidationDefinition (message : String)
  | duplicateMethod (name : String)
  | hostThrow (e : JsThrow)
deriving DecidableEq

/-- The definition-object shape accepted by `bind` (rpc-server.js lines
53-67): optional own properties `method`, `params` and `interceptor`.
`none` models an absent property; present function-valued interceptors are
Lean functions. -/
structure MethodDefSpec where
  methodName : Option JsValue := none
  params : Option JsValue := none
  interceptorFn : Option (JsValue → List JsValue → JsValue) := none

/-- The three first-argument shapes of `bind` (rpc-server.js lines 43-67): a
function (carrying its own introspectable name, body and extracted parameter
names), a string name, or a definition object. -/
inductive BindArg where
  | fnForm (name : JsValue) (fn : List JsValue → Except JsValue JsValue)
      (fnParams : List String)
  | strForm (name : String)
  | defForm (defn : MethodDefSpec)

/-- The validation-definition checks of `bind` (rpc-server.js lines 79-96),
run when the definition carried a truthy `params` schema: the schema must be
a plain object owning `properties`, every properties key must name a
declared parameter, and on success the Ajv-compiled validator is attached to
the method definition. -/
def validationCheck (ajvCompile : JsValue → JsValue → Bool × JsValue)
    (methodValidations : Option JsValue) (parameterNames : List String)
    (methodDefinition : MethodDefn) : Except BindError MethodDefn :=
  match methodValidations with
  | some validations =>
      if validations.truthy then
        if !(isPlainObject validations) then
          .error (.invalidValidationDefinition "not a plain object")
        else if !(validations.hasOwn "properties") then
          .error (.invalidValidationDefinition "missing properties")
        else
          match objectOwnKeys (validations.get "properties") with
          | .error e => .error (.hostThrow e)
          | .ok keys =>
              match keys.find? (fun p => !(parameterNames.contains p)) with
              | some p =>
                  .error (.invalidValidationDefinition ("unknown parameter " ++ p))
              | none =>
                  .ok { methodDefinition with
                    validate := some (ajvCompile validations) }
      else .ok methodDefinition
  | none => .ok methodDefinition

/-- Embeds `RpcServer.prototype.bind` as a state transformer that returns
the (possibly updated) registry together with the thrown error, if any; the
JS method mutates `this._methodHandlers` only in its final statement, so on
every thrown error the registry is returned unchanged.  `ajvCompile` is the
external Ajv compiler (`this._ajv.compile`); `methodFn`/`methodFnParams`
model the second JS argument and `u.extractParameterNames` applied to it. -/
def bindRun (ajvCompile : JsValue → JsValue → Bool × JsValue)
    (handlers : List (String × MethodDefn)) (arg : BindArg)
    (methodFn : List JsValue → Except JsValue JsValue)
    (methodFnParams : List String) :
    List (String × MethodDefn) × Option BindError :=
  let resolved : Except BindError
      (String × (List JsValue → Except JsValue JsValue) × List String ×
        Option JsValue × Option (JsValue → List JsValue → JsValue)) :=
    match arg with
    | .fnForm name fn fnParams =>
        if name.isUndefined || name.isNull || name.toKey == "" then
          .error .invalidMethodName
        else .ok (name.toKey, fn, fnParams, none, none)
    | .strForm name => .ok (name, methodFn, methodFnParams, none, none)
    | .defForm defn =>
        match defn.methodName with
        | none => .error (.invalidMethodDefinition "missing method name")
        | some nameValue =>
            .ok (nameValue.toKey, methodFn, methodFnParams, defn.params,
              defn.interceptorFn)
  match resolved with
  | .error e => (handlers, some e)
  | .ok (methodName, methodFunc, parameterNames, methodValidations, interceptor) =>
      let methodDefinition : MethodDefn :=
        { method := methodFunc, parameters := parameterNames,
          interceptor := interceptor }
      match validationCheck ajvCompile methodValidations parameterNames
          methodDefinition with
      | .error e => (handlers, some e)
      | .ok methodDefinition =>
          if handlers.any (fun h => h.1 == methodName) then
            (handlers, some (.duplicateMethod methodName))
          else (setField handlers methodName methodDefinition, none)

/-! RpcClient (src/unnamed/part_000, the revision the spec and the claims
reference). -/

/-- One entry of the client's pending-request table
(`self._requests[correlator]`, part_000 lines 125-126): the one-shot
completion sink is modelled by the emitted `ClientEvent`s, so the entry only
records the attached deadline timer id. -/
structure PendingEntry where
  timeoutId : Option Nat := none
deriving DecidableEq

/-- A timer registered with the host's `setTimeout`: its handle, the delay
it was scheduled with, and the correlator its callback closes over. -/
structure ScheduledTimer where
  id : Nat
  delay : JsValue
  correlator : String

/-- Reasons a pending completion is rejected. -/
inductive RejectReason where
  | requestTimeout
  | protocolError (e : JsValue)
  | rawMessage (m : JsValue)
  | linkError (e : JsValue)

/-- Observable completions and log calls of the client. -/
inductive ClientEvent where
  | resolved (correlator : String) (value : JsValue)
  | rejected (correlator : String) (reason : RejectReason)
  | logged (message : String)

/-- The client state assembled by the `RpcClient` constructor and mutated by
its methods: the configured timeout, the pending-request table
(`this._requests`) and the host timers currently scheduled. -/
structure RpcClientState where
  timeoutMs : JsValue
  requestsTable : List (String × PendingEntry) := []
  timers : List ScheduledTimer := []
  nextTimerId : Nat := 0

/-- Modelled from the spec: the local client error RequestTimeout
(`errors.RequestTimeoutError`).  part_000 line 128 constructs it, but the
errors.js revision under src/lib lacks this constructor; the spec lists
RequestTimeout among the local client errors, so it is modelled as the
dedicated rejection reason. -/
def requestTimeoutRejection : RejectReason := .requestTimeout

/-- Embeds the constructor assignment `this._timeout = options.timeout ||
5000` (part_000 line 14): the right operand is taken whenever the supplied
timeout is falsy, and the number 0 is falsy. -/
def clientTimeout (timeoutOption : JsValue) : JsValue :=
  jsOr timeoutOption (.num 5000)

/-- Embeds the send-success continuation of `RpcClient.prototype._sendRequest`
(part_000 lines 124-132): install the pending entry under the correlator and
unconditionally call `setTimeout` with delay `self._timeout`, recording the
returned timer id on the entry. -/
def sendRequestInstall (st : RpcClientState) (correlator : String) : RpcClientState :=
  let tid := st.nextTimerId
  { st with
    requestsTable := setField st.requestsTable correlator { timeoutId := some tid },
    timers := st.timers ++ [⟨tid, st.timeoutMs, correlator⟩],
    nextTimerId := tid + 1 }

/-- Embeds the timer callback scheduled by `_sendRequest` (part_000 lines
126-131): if the correlator is still present in `this._requests`, reject the
completion with RequestTimeout and delete the entry; otherwise do nothing. -/
def timeoutCallback (st : RpcClientState) (correlator : String) :
    RpcClientState × List ClientEvent :=
  if (st.requestsTable.find? (fun kv => kv.1 == correlator)).isSome then
    ({ st with
        requestsTable := st.requestsTable.filter (fun kv => !(kv.1 == correlator)),
        timers := st.timers.filter (fun t => !(t.correlator == correlator)) },
      [.rejected correlator requestTimeoutRejection])
  else (st, [])

/-- Embeds `errors.wrapProtocolError` (src/lib/errors.js lines 123-137): the
switch selects a constructor by code — called with no arguments, so the
subtype constructors fix their code and leave `message` undefined, while the
base `ProtocolError` leaves even `code` undefined — and then `message` and
`data` are copied from the wire error. -/
def wrapProtocolError (err : JsValue) : JsValue :=
  let code := err.get "code"
  let base : List (String × JsValue) :=
    if code.eqNum ErrorCode.ParseError then
      [("code", .num ErrorCode.ParseError), ("message", .undefined)]
    else if code.eqNum ErrorCode.InvalidRequest then
      [("code", .num ErrorCode.InvalidRequest), ("message", .undefined)]
    else if code.eqNum ErrorCode.MethodNotFound then
      [("code", .num ErrorCode.MethodNotFound), ("message", .undefined)]
    else if code.eqNum ErrorCode.InvalidParams then
      [("code", .num ErrorCode.InvalidParams), ("message", .undefined)]
    else if code.eqNum ErrorCode.InternalError then
      [("code", .num ErrorCode.InternalError), ("message", .undefined)]
    else [("code", .undefined), ("message", .undefined)]
  .obj (setField (setField base "message" (err.get "message")) "data" (err.get "data"))

/-- Embeds `RpcClient.prototype._processMessage` (part_000 lines 137-174):
drop correlation-less or unknown responses with a log line, cancel the
entry's deadline timer, settle the completion according to the body shape
(batch array, `result`, `error`, or malformed) and remove the entry. -/
def clientProcessMessage (st : RpcClientState) (message : JsValue) :
    RpcClientState × List ClientEvent :=
  let correlationId := (message.get "properties").get "correlationId"
  if correlationId.isUndefined || correlationId.isNull then
    (st, [.logged "message lacks correlation-id"])
  else
    let key := correlationId.toKey
    match st.requestsTable.find? (fun kv => kv.1 == key) with
    | none => (st, [.logged "invalid correlation-id"])
    | some entry =>
        let cleared := { st with
          timers := st.timers.filter
            (fun t => !(entry.2.timeoutId == some t.id)) }
        let body := message.get "body"
        let events : List ClientEvent :=
          match body with
          | .arr items =>
              [.resolved key (.arr (items.map (fun r =>
                if r.hasOwn "result" then r.get "result"
                else if r.hasOwn "error" then r.get "error"
                else .undefined)))]
          | _ =>
              if body.hasOwn "result" then [.resolved key (body.get "result")]
              else if body.hasOwn "error" then
                [.rejected key (.protocolError (wrapProtocolError (body.get "error")))]
              else [.rejected key (.rawMessage message)]
        ({ cleared with
            requestsTable := cleared.requestsTable.filter (fun kv => !(kv.1 == key)) },
          events)

/-- JS member access `self.requests` as written in the `errorReceived`
handler (part_000 line 35).  The `RpcClient` constructor (part_000 lines
7-17) assigns the properties `_client`, `_logger`, `_receiver`, `_sender`,
`_requests`, `_timeout` and `_responseLinkParameters`, and no other code
path assigns `requests`; the access therefore evaluates to `undefined` for
every client instance. -/
def RpcClientState.requestsPropertyAccess (_ : RpcClientState) : JsValue :=
  .undefined

/-- Embeds the response receiver's `errorReceived` handler installed by
`RpcClient.prototype.connect` (part_000 lines 34-40):
`var _keys = Object.keys(self.requests), _len = _keys.length;` followed by a
loop rejecting and deleting `self._requests[_keys[i]]`.  The key enumeration
runs on `self.requests`, not `self._requests`, and the loop is only reached
if that enumeration returns. -/
def onErrorReceived (st : RpcClientState) (err : JsValue) :
    Except JsThrow (RpcClientState × List ClientEvent) := do
  let keyList ← objectOwnKeys st.requestsPropertyAccess
  return keyList.foldl
    (fun acc k =>
      ({ acc.1 with
          requestsTable := acc.1.requestsTable.filter (fun kv => !(kv.1 == k)) },
        acc.2 ++ [.rejected k (.linkError err)]))
    (st, [])

/-- Number of reply messages sent within an action list. -/
def sendCount (actions : List ServerAction) : Nat :=
  actions.countP (fun a => match a with | .send _ _ _ => true | _ => false)

/-- Number of settlement dispositions (accept, modify) within an action
list. -/
def settleCount (actions : List ServerAction) : Nat :=
  actions.countP (fun a =>
    match a with
    | .accept => true
    | .modifyUndeliverable => true
    | _ => false)

/-! Concrete fixtures used to evaluate the embedded pipeline, mirroring the
repository's own test inputs (src/test/server.test.js). -/

/-- A request message with the given body and the given properties object
fields. -/
def requestMsg (body : JsValue) (props : List (String × JsValue)) : JsValue :=
  .obj [("body", body), ("properties", .obj props)]

/-- A registry with one bound `testMethod` returning the string
"hello world" (the handler of the broadcast test, server.test.js line 283). -/
def sampleHandlers : List (String × MethodDefn) :=
  [("testMethod", { method := fun _ => .ok (.str "hello world"), parameters := [] })]

/-- A server over `sampleHandlers` with default options. -/
def sampleCfg : ServerCfg := { methodHandlers := sampleHandlers }

/-- A host JSON parser that fails on every input with the message the
repository's parse-error test expects (server.test.js line 86); the fixture
messages below never carry a string body unless the test is about this
failure. -/
def failingParse : String → Except String JsValue :=
  fun _ => .error "Unexpected token i in JSON at position 0"

/-- The broadcast request of server.test.js lines 286-289: replyTo present,
correlationId absent. -/
def broadcastMsg : JsValue :=
  requestMsg (.obj [("method", .str "testMethod")])
    [("replyTo", .str "rpc.response")]

/-- The standard test request carrying both replyTo and correlationId
(server.test.js lines 237-238). -/
def correlatedMsg : JsValue :=
  requestMsg (.obj [("method", .str "testMethod")])
    [("replyTo", .str "rpc.response"), ("correlationId", .str "llama")]

/-- A server whose only method carries a per-method interceptor that returns
`false` for every invocation; the bound handler is the argument. -/
def interceptedCfg (handler : List JsValue → Except JsValue JsValue) : ServerCfg :=
  { methodHandlers :=
      [("testMethod", { method := handler, parameters := [],
                        interceptor := some (fun _ _ => .bool false) })] }

/-- A server binding `echo(one, two, three)` returning its argument list
(the three-parameter handler of server.test.js lines 188-192). -/
def threeParamCfg : ServerCfg :=
  { methodHandlers :=
      [("echo", { method := fun args => .ok (.arr args),
                  parameters := ["one", "two", "three"] })] }

/-- A message whose body is the raw string `s`, with reply routing. -/
def stringBodyMsg (s r c : String) : JsValue :=
  requestMsg (.str s) [("replyTo", .str r), ("correlationId", .str c)]

/-- A batch message over the given items, with reply routing. -/
def batchMsg (items : List JsValue) (r c : String) : JsValue :=
  requestMsg (.arr items) [("replyTo", .str r), ("correlationId", .str c)]

/-- The batch-test registry (server.test.js lines 302-304): `firstMethod`
returns 1, `thirdMethod` returns true, and nothing else is bound. -/
def batchCfg : ServerCfg :=
  { methodHandlers :=
      [("firstMethod", { method := fun _ => .ok (.num 1), parameters := [] }),
       ("thirdMethod", { method := fun _ => .ok (.bool true), parameters := [] })] }

/-- The three batch items of the interleaved-error test (server.test.js
lines 346-350). -/
def batchItemsFixture : List JsValue :=
  [.obj [("method", .str "firstMethod")],
   .obj [("method", .str "zecondMerthad")],
   .obj [("method", .str "thirdMethod")]]

/-- The batch-test registry with the `thirdMethod` handler left abstract, to
state that a faulting earlier item keeps it from ever being invoked. -/
def batchCfgThird (h3 : List JsValue → Except JsValue JsValue) : ServerCfg :=
  { methodHandlers :=
      [("firstMethod", { method := fun _ => .ok (.num 1), parameters := [] }),
       ("thirdMethod", { method := h3, parameters := [] })] }

/-- A batch whose every item names a bound method. -/
def successItemsFixture : List JsValue :=
  [.obj [("method", .str "firstMethod")],
   .obj [("method", .str "thirdMethod")]]

/-- An empty-registry server configured with `ignoreUnknownMethods`. -/
def ignoreCfg : ServerCfg := { methodHandlers := [], ignoreUnknownMethods := true }

/-- The batch-test registry with `ignoreUnknownMethods` switched on. -/
def ignoreBatchCfg : ServerCfg :=
  { methodHandlers := batchCfg.methodHandlers, ignoreUnknownMethods := true }

/-- The single-mode MethodNotFound response such a server would format. -/
def methodNotFoundResponse : JsValue :=
  .obj [("error", .obj [("code", .num ErrorCode.MethodNotFound),
    ("message", .str "No such method: nope")])]

/-- A client (constructed with the 5000 ms default) holding one pending
request under correlator "abc" whose deadline timer is scheduled. -/
def clientWithPending : RpcClientState :=
  { timeoutMs := clientTimeout .undefined,
    requestsTable := [("abc", { timeoutId := some 0 })],
    timers := [⟨0, .num 5000, "abc"⟩],
    nextTimerId := 1 }

/-- The name an invocation of `bind` resolves its first argument to, when
the shape checks of rpc-server.js lines 43-67 accept it. -/
def resolvedBindName : BindArg → Option String
  | .fnForm name _ _ =>
      if name.isUndefined || name.isNull || name.toKey == "" then none
      else some name.toKey
  | .strForm name => some name
  | .defForm defn => defn.methodName.map (fun v => v.toKey)

/-- Whether a supplied `params` validation schema passes the checks of
rpc-server.js lines 79-96: with a truthy schema, it must be a plain object
owning `properties` whose keys all name declared parameters. -/
def paramsChecksPass (methodValidations : Option JsValue)
    (parameterNames : List String) : Bool :=
  match methodValidations with
  | some validations =>
      if validations.truthy then
        isPlainObject validations && validations.hasOwn "properties" &&
          (match objectOwnKeys (validations.get "properties") with
           | .ok keys => keys.all (fun p => parameterNames.contains p)
           | .error _ => false)
      else true
  | none => true

/-- Whether a `bind` invocation passes every check that precedes the
duplicate-name check: only the definition-object shape carries such
checks. -/
def bindEarlyChecksPass (arg : BindArg) (methodFnParams : List String) : Bool :=
  match arg with
  | .fnForm _ _ _ => true
  | .strForm _ => true
  | .defForm defn => paramsChecksPass defn.params methodFnParams

/-! Helper lemmas. -/

/-- A validation definition that passes all checks compiles successfully, so
execution reaches the duplicate-name check. -/
theorem validationCheck_ok_of_pass (ajvCompile : JsValue → JsValue → Bool × JsValue)
    (methodValidations : Option JsValue) (parameterNames : List String)
    (methodDefinition : MethodDefn)
    (h : paramsChecksPass methodValidations parameterNames = true) :
    ∃ d, validationCheck ajvCompile methodValidations parameterNames
      methodDefinition = .ok d := by
  cases methodValidations with
  | none => exact ⟨methodDefinition, rfl⟩
  | some validations =>
      by_cases ht : validations.truthy = true
      · simp only [paramsChecksPass, ht, if_true, Bool.and_eq_true] at h
        obtain ⟨⟨hpo, hprop⟩, hkeys⟩ := h
        cases hk : objectOwnKeys (validations.get "properties") with
        | error e => rw [hk] at hkeys; exact absurd hkeys (by simp)
        | ok keys =>
            rw [hk] at hkeys
            have hfind : keys.find? (fun p => !decide (p ∈ parameterNames)) = none := by
              rw [List.find?_eq_none]
              intro p hp
              have := (List.all_eq_true.mp hkeys) p hp
              simpa using this
            refine ⟨{ methodDefinition with validate := some (ajvCompile validations) }, ?_⟩
            simp [validationCheck, ht, hpo, hprop, hk, hfind]
      · refine ⟨methodDefinition, ?_⟩
        simp [validationCheck, ht]

/-! Claim theorems. -/

/-- C1.  The claim states that every request carrying a replyTo or a
correlationId receives exactly one response; evaluating the embedded
pipeline at the repository's own broadcast-test input (replyTo present,
correlationId absent, `testMethod` bound, nothing suppressed) shows the
server accepts the message and sends nothing — the `correlationId ===
undefined` disjunct of the precedence-resolved guard in `_respond` routes
the reply into the notification branch — while the identical request with a
correlationId gets its reply. -/
theorem c1_broadcast_reply_dropped :
    processMessage sampleCfg failingParse broadcastMsg = [.accept] ∧
    sendCount (processMessage sampleCfg failingParse broadcastMsg) = 0 ∧
    processMessage sampleCfg failingParse correlatedMsg =
      [.accept, .send (.str "rpc.response")
        (.obj [("result", .str "hello world")]) (some (.str "llama"))] :=
  ⟨rfl, rfl, rfl⟩

/-- C2.  The claim states that a link-level `errorReceived` rejects every
pending request; in the code the handler enumerates `Object.keys(
self.requests)` — a property the constructor never assigns — so the
enumeration throws a TypeError before the rejection loop starts, for every
client state and every error: no pending request is rejected or removed. -/
theorem c2_error_received_rejects_nothing :
    (∀ (st : RpcClientState) (err : JsValue),
      onErrorReceived st err =
        .error (.typeError "Cannot convert undefined or null to object")) ∧
    onErrorReceived clientWithPending (.str "amqp:link:detach-forced") =
      .error (.typeError "Cannot convert undefined or null to object") :=
  ⟨fun _ _ => rfl, rfl⟩

/-- C3 counterexample.  The claim states that a per-method interceptor
returning `false` short-circuits like the global interceptor (no reply, the
interceptor owns settlement).  At a concrete request for a method whose
interceptor returns `false`, the server itself accepts the message and sends
a reply, so the claim fails. -/
theorem c3_counterexample :
    processMessage (interceptedCfg (fun _ => .ok (.str "handler result")))
        failingParse correlatedMsg =
      [.accept, .send (.str "rpc.response") (.obj [("result", .null)])
        (some (.str "llama"))] ∧
    sendCount (processMessage (interceptedCfg (fun _ => .ok (.str "handler result")))
        failingParse correlatedMsg) = 1 :=
  ⟨rfl, rfl⟩

/-- C3 amended.  When the per-method interceptor returns `false` the bound
handler is never invoked (the action list below is the same for every
handler), but the pipeline does not short-circuit the way the global
interceptor does: the bare `return` resolves the dispatch promise with
`undefined`, `formatResponse` wraps that into a `result: null` envelope, and
the server itself accepts the message and sends that reply. -/
theorem c3_amended (handler : List JsValue → Except JsValue JsValue) :
    processMessage (interceptedCfg handler) failingParse correlatedMsg =
      [.accept, .send (.str "rpc.response") (.obj [("result", .null)])
        (some (.str "llama"))] :=
  rfl

/-- C4.  The claim states that every position past the supplied positional
params is passed as `null`; the conversion uses `idx > params.length`, so
the position at index exactly `params.length` falls into the `params[idx]`
branch and is passed as `undefined` instead.  For the three-parameter
handler `echo(one, two, three)` and any single supplied value, the argument
list is `[v, undefined, null]` where the claim requires `[v, null, null]`. -/
theorem c4_position_at_length_is_undefined (v : JsValue) :
    convertPositionalParams ["one", "two", "three"] [v] =
      .obj [("one", v), ("two", .undefined), ("three", .null)] ∧
    (processRequest threeParamCfg (.str "rpc.response") (.str "llama")
        (.obj [("method", .str "echo"), ("params", .arr [v])])).map
        (fun rd => rd.2) =
      .ok [v, .undefined, .null] :=
  ⟨rfl, rfl⟩

/-- C5 counterexample.  The claim states that a configured timeout of 0 (or
an unset one) disables the deadline; the constructor computes
`options.timeout || 5000`, so 0 yields the 5000 ms default, and the send
path of such a client still schedules a deadline timer. -/
theorem c5_counterexample :
    clientTimeout (.num 0) = .num 5000 ∧
    clientTimeout .undefined = .num 5000 ∧
    (sendRequestInstall { timeoutMs := clientTimeout (.num 0) } "c").timers =
      [⟨0, .num 5000, "c"⟩] :=
  ⟨rfl, rfl, rfl⟩

/-- C5 amended.  The configured deadline is `options.timeout || 5000`, so 0
and unset both yield the 5000 ms default and no configuration disables the
deadline; the send path always schedules one timer with delay
`self._timeout`; when the timer fires it rejects with RequestTimeout and
removes the entry only if the correlator is still pending, and does nothing
otherwise, so a completed request is never settled twice. -/
theorem c5_amended (topt : JsValue) (st : RpcClientState) (corr : String) :
    clientTimeout topt = (if topt.truthy then topt else .num 5000) ∧
    (sendRequestInstall st corr).timers =
      st.timers ++ [⟨st.nextTimerId, st.timeoutMs, corr⟩] ∧
    ((st.requestsTable.find? (fun kv => kv.1 == corr)).isSome →
      timeoutCallback st corr =
        ({ st with
            requestsTable := st.requestsTable.filter (fun kv => !(kv.1 == corr)),
            timers := st.timers.filter (fun t => !(t.correlator == corr)) },
          [.rejected corr requestTimeoutRejection])) ∧
    (st.requestsTable.find? (fun kv => kv.1 == corr) = none →
      timeoutCallback st corr = (st, [])) := by
  refine ⟨rfl, rfl, fun h => ?_, fun h => ?_⟩
  · simp [timeoutCallback, h]
  · simp [timeoutCallback, h]

/-- C5 witness: a pending correlator is rejected with RequestTimeout and
removed when its timer fires, and a fired timer for an absent correlator
settles nothing. -/
theorem c5_amended_witness :
    timeoutCallback clientWithPending "abc" =
      ({ timeoutMs := .num 5000, requestsTable := [], timers := [], nextTimerId := 1 },
        [.rejected "abc" .requestTimeout]) ∧
    timeoutCallback clientWithPending "zzz" = (clientWithPending, []) :=
  ⟨(c5_amended .undefined clientWithPending "abc").2.2.1 rfl,
   (c5_amended .undefined clientWithPending "zzz").2.2.2 rfl⟩

/-- C6 counterexample.  The claim states the server accepts (settles) a
message whose string body fails JSON parsing; at the repository's own
parse-error test input the emitted action list is exactly one send — the
ParseError reply — and contains no settlement disposition at all. -/
theorem c6_counterexample :
    processMessage sampleCfg failingParse (stringBodyMsg "invalid message" "rpc.response" "llama") =
      [.send (.str "rpc.response")
        (.obj [("error", .obj [("code", .num (-32700)),
          ("message", .str "Unexpected token i in JSON at position 0"),
          ("data", .str "invalid message")])])
        (some (.str "llama"))] ∧
    settleCount (processMessage sampleCfg failingParse
      (stringBodyMsg "invalid message" "rpc.response" "llama")) = 0 :=
  ⟨rfl, rfl⟩

/-- C6 amended.  For every received message carrying reply routing whose
body is a (non-empty) string the host JSON parser rejects, the server sends
exactly one response whose error has code -32700 and whose data field is the
original body text — and it does not settle the message: the parse-error
branch returns before any disposition. -/
theorem c6_amended (cfg : ServerCfg) (hostParse : String → Except String JsValue)
    (s errMessage r c : String)
    (hparse : hostParse s = .error errMessage) (hs : s ≠ "") (hc : c ≠ "") :
    processMessage cfg hostParse (stringBodyMsg s r c) =
      [.send (.str r)
        (.obj [("error", .obj [("code", .num ErrorCode.ParseError),
          ("message", .str errMessage), ("data", .str s)])])
        (some (.str c))] ∧
    settleCount (processMessage cfg hostParse (stringBodyMsg s r c)) = 0 := by
  have hmain : processMessage cfg hostParse (stringBodyMsg s r c) =
      [.send (.str r)
        (.obj [("error", .obj [("code", .num ErrorCode.ParseError),
          ("message", .str errMessage), ("data", .str s)])])
        (some (.str c))] := by
    simp [processMessage, stringBodyMsg, requestMsg, JsValue.hasOwn, JsValue.get,
      jsOr, JsValue.truthy, hparse, respond, mkProtocolError, ErrorCode.ParseError,
      ErrorCode.MethodNotFound, JsValue.isNull, JsValue.isUndefined, JsValue.eqNum,
      JsValue.isArray, hs, hc]
  exact ⟨hmain, by rw [hmain]; rfl⟩

/-- C6 witness: the amended statement evaluated at the repository's
parse-error test input. -/
theorem c6_amended_witness :
    processMessage sampleCfg failingParse (stringBodyMsg "bogus" "rpc.response" "c1") =
      [.send (.str "rpc.response")
        (.obj [("error", .obj [("code", .num ErrorCode.ParseError),
          ("message", .str "Unexpected token i in JSON at position 0"),
          ("data", .str "bogus")])])
        (some (.str "c1"))] :=
  (c6_amended sampleCfg failingParse "bogus" "Unexpected token i in JSON at position 0"
    "rpc.response" "c1" rfl (by decide) (by decide)).1

/-- C7.  The claim states that a per-item error does not abort the batch and
that the reply is an N-aligned sequence; evaluating the embedded pipeline at
the repository's own interleaved-error batch test input shows otherwise: the
MethodNotFoundError thrown for `zecondMerthad` is a plain non-Error object
with no `isOperational` flag, so bluebird's `.error` never catches it — the
`Promise.reduce` chain rejects at item 2, the third handler is never invoked
(the action list is the same for every `thirdMethod` handler) and no reply
is sent, the message having been accepted beforehand.  An error-free batch,
by contrast, does get the aligned reply. -/
theorem c7_batch_error_aborts (h3 : List JsValue → Except JsValue JsValue) :
    processMessage (batchCfgThird h3) failingParse
      (batchMsg batchItemsFixture "rpc.response" "llama") = [.accept] ∧
    sendCount (processMessage (batchCfgThird h3) failingParse
      (batchMsg batchItemsFixture "rpc.response" "llama")) = 0 ∧
    batchResponses (batchCfgThird h3) (.str "rpc.response") (.str "llama")
      batchItemsFixture =
      .error (mkProtocolError ErrorCode.MethodNotFound
        "No such method: zecondMerthad"
        (sourceData (.str "rpc.response")
          (.obj [("method", .str "zecondMerthad")]))) ∧
    processMessage batchCfg failingParse
      (batchMsg successItemsFixture "rpc.response" "llama") =
      [.accept, .send (.str "rpc.response")
        (.arr [.obj [("result", .num 1)], .obj [("result", .bool true)]])
        (some (.str "llama"))] :=
  ⟨rfl, rfl, rfl, rfl⟩

/-- C8.  A handler return value owning a `method` key (which forces it to be
a mapping, hence truthy) passes through `formatResponse` verbatim; every
other value is wrapped as a result object, with `undefined` replaced by
`null` and every other value kept as-is. -/
theorem c8_formatResponse_shape (v : JsValue) :
    (v.hasOwn "method" → formatResponse v = v) ∧
    (¬ v.hasOwn "method" →
      formatResponse v = .obj [("result", if v.isUndefined then .null else v)]) := by
  constructor
  · intro h
    have htruthy : v.truthy := by
      cases v <;> simp_all [JsValue.hasOwn, JsValue.truthy]
    simp [formatResponse, h, htruthy]
  · intro h
    have h' : v.hasOwn "method" = false := by simpa using h
    simp [formatResponse, h']

/-- C8 witness: a pass-through envelope, the undefined-to-null wrap, and an
ordinary value wrap. -/
theorem c8_formatResponse_shape_witness :
    formatResponse (.obj [("method", .str "forwarded")]) =
      .obj [("method", .str "forwarded")] ∧
    formatResponse .undefined = .obj [("result", .null)] ∧
    formatResponse (.num 7) = .obj [("result", .num 7)] :=
  ⟨(c8_formatResponse_shape (.obj [("method", .str "forwarded")])).1 (by decide),
   (c8_formatResponse_shape .undefined).2 (by decide),
   (c8_formatResponse_shape (.num 7)).2 (by decide)⟩

/-- C9.  A `bind` call whose first argument resolves to an already-bound
name leaves the registry unchanged and throws — the registry assignment is
the method's final statement, after every check — and whenever the call
passes the shape and validation checks that precede the duplicate-name
check, the thrown error is exactly DuplicateMethod. -/
theorem c9_duplicate_bind (ajvCompile : JsValue → JsValue → Bool × JsValue)
    (handlers : List (String × MethodDefn)) (arg : BindArg)
    (methodFn : List JsValue → Except JsValue JsValue)
    (methodFnParams : List String) (name : String)
    (hname : resolvedBindName arg = some name)
    (hdup : handlers.any (fun h => h.1 == name)) :
    (bindRun ajvCompile handlers arg methodFn methodFnParams).1 = handlers ∧
    (bindRun ajvCompile handlers arg methodFn methodFnParams).2.isSome ∧
    (bindEarlyChecksPass arg methodFnParams →
      (bindRun ajvCompile handlers arg methodFn methodFnParams).2 =
        some (.duplicateMethod name)) := by
  cases arg with
  | fnForm nm fn0 ps =>
      by_cases hg : (nm.isUndefined || nm.isNull || nm.toKey == "") = true
      · simp [resolvedBindName, hg] at hname
      · simp only [resolvedBindName] at hname
        rw [if_neg hg] at hname
        have hkey : nm.toKey = name := Option.some.inj hname
        subst hkey
        simp [bindRun, hg, validationCheck, hdup, bindEarlyChecksPass]
  | strForm nm =>
      have hkey : nm = name := by simpa [resolvedBindName] using hname
      subst hkey
      simp [bindRun, validationCheck, hdup, bindEarlyChecksPass]
  | defForm defn =>
      cases hmn : defn.methodName with
      | none => simp [resolvedBindName, hmn] at hname
      | some nameValue =>
          have hkey : nameValue.toKey = name := by
            simpa [resolvedBindName, hmn] using hname
          subst hkey
          cases hv : validationCheck ajvCompile defn.params methodFnParams
              { method := methodFn, parameters := methodFnParams,
                interceptor := defn.interceptorFn } with
          | error e =>
              refine ⟨?_, ?_, ?_⟩
              · simp [bindRun, hmn, hv]
              · simp [bindRun, hmn, hv]
              · intro hpass
                simp only [bindEarlyChecksPass] at hpass
                obtain ⟨d, hd⟩ := validationCheck_ok_of_pass ajvCompile defn.params
                  methodFnParams
                  { method := methodFn, parameters := methodFnParams,
                    interceptor := defn.interceptorFn } hpass
                rw [hv] at hd
                exact absurd hd (by simp)
          | ok d =>
              refine ⟨?_, ?_, fun _ => ?_⟩ <;>
                simp [bindRun, hmn, hv, hdup]

/-- C9 witness: re-binding the already-bound `testMethod` by name throws
DuplicateMethod and leaves the one-entry registry untouched. -/
theorem c9_duplicate_bind_witness :
    (bindRun (fun _ _ => (true, .null)) sampleHandlers (.strForm "testMethod")
      (fun _ => .ok .undefined) []).1 = sampleHandlers ∧
    (bindRun (fun _ _ => (true, .null)) sampleHandlers (.strForm "testMethod")
      (fun _ => .ok .undefined) []).2 = some (.duplicateMethod "testMethod") :=
  ⟨(c9_duplicate_bind (fun _ _ => (true, .null)) sampleHandlers (.strForm "testMethod")
      (fun _ => .ok .undefined) [] "testMethod" rfl rfl).1,
   (c9_duplicate_bind (fun _ _ => (true, .null)) sampleHandlers (.strForm "testMethod")
      (fun _ => .ok .undefined) [] "testMethod" rfl rfl).2.2 rfl⟩

/-- C10 counterexample.  The claim states that under `ignoreUnknownMethods`
a batch reply is always sent in full, including items that are
MethodNotFound errors; at the interleaved-error batch input on such a
server, the unknown method's thrown (non-operational) error escapes the
reducer's `.error`, the accumulation rejects and no reply is sent at all. -/
theorem c10_counterexample :
    processMessage ignoreBatchCfg failingParse
      (batchMsg batchItemsFixture "rpc.response" "llama") = [.accept] ∧
    sendCount (processMessage ignoreBatchCfg failingParse
      (batchMsg batchItemsFixture "rpc.response" "llama")) = 0 :=
  ⟨rfl, rfl⟩

/-- C10 amended.  Under `ignoreUnknownMethods`, suppression still applies
exactly to a response owning a top-level `error.code` of -32601: whenever
the batch accumulation completes, the array reply — which owns no `error`
property — is sent in full, whatever its items, and when it rejects only
the upfront accept happens; program-level, a single-mode operational
rejection carrying code -32601 is formatted and settled but its reply is
dropped; and `_respond` suppresses a MethodNotFound envelope for every
routing while passing every array on to the send. -/
theorem c10_amended (cfg : ServerCfg) (hign : cfg.ignoreUnknownMethods = true)
    (r c : String) (hc : c ≠ "") :
    (∀ (hostParse : String → Except String JsValue) (items : List JsValue),
      cfg.interceptor = none → cfg.completionInterceptor = none →
      processMessage cfg hostParse (batchMsg items r c) =
        (match batchResponses cfg (.str r) (.str c) items with
         | .ok responses =>
             [.accept, .send (.str r) (.arr responses) (some (.str c))]
         | .error _ => [.accept])) ∧
    (∀ message request e : JsValue, cfg.completionInterceptor = none →
      singleTry cfg message (.str r) (.str c) request = .error e →
      isOperationalRejection e = true → e.hasOwn "code" = true →
      (e.get "code").eqNum ErrorCode.MethodNotFound = true →
      processSingle cfg message (.str r) (.str c) request = [.accept, .accept]) ∧
    (∀ resp : JsValue, resp.hasOwn "error" →
      ((resp.get "error").get "code").eqNum ErrorCode.MethodNotFound →
      ∀ replyTo correlationId : JsValue,
        respond cfg replyTo correlationId resp = []) ∧
    (∀ responses : List JsValue,
      respond cfg (.str r) (.str c) (.arr responses) =
        [.send (.str r) (.arr responses) (some (.str c))]) := by
  refine ⟨fun hostParse items hi hci => ?_,
    fun message request e hci hstry hop hcode hmnf => ?_,
    fun resp he hcodeNum replyTo correlationId => ?_,
    fun responses => ?_⟩
  · cases hX : batchResponses cfg (.str r) (.str c) items with
    | error e =>
        simp [processMessage, batchMsg, requestMsg, JsValue.hasOwn, JsValue.get,
          jsOr, JsValue.truthy, hi, hci, hX]
    | ok responses =>
        simp [processMessage, batchMsg, requestMsg, JsValue.hasOwn, JsValue.get,
          jsOr, JsValue.truthy, hi, hci, hX, respond, JsValue.isNull,
          JsValue.isUndefined, JsValue.eqNum, hc]
  · cases e <;>
      simp_all [processSingle, afterSingle, respond, formatError, jsOr,
        JsValue.truthy, JsValue.isNull, JsValue.isUndefined, JsValue.hasOwn,
        JsValue.get, isOperationalRejection, JsValue.isTrueLit, hign]
  · have hobj : resp.isNull = false ∧ resp.isUndefined = false := by
      cases resp <;> simp_all [JsValue.hasOwn, JsValue.isNull, JsValue.isUndefined]
    simp [respond, hobj.1, hobj.2, he, hcodeNum, hign]
  · simp [respond, JsValue.isNull, JsValue.isUndefined, JsValue.hasOwn,
      JsValue.truthy, hc]

/-- C10 witness: with `ignoreUnknownMethods` set, the interleaved-error
batch yields only the upfront accept, the error-free batch is sent in full,
and the single-mode MethodNotFound envelope is dropped by the reply path. -/
theorem c10_amended_witness :
    processMessage ignoreBatchCfg failingParse
      (batchMsg batchItemsFixture "rpc.response" "llama") = [.accept] ∧
    processMessage ignoreBatchCfg failingParse
      (batchMsg successItemsFixture "rpc.response" "llama") =
      [.accept, .send (.str "rpc.response")
        (.arr [.obj [("result", .num 1)], .obj [("result", .bool true)]])
        (some (.str "llama"))] ∧
    respond ignoreBatchCfg (.str "rpc.response") (.str "llama")
      methodNotFoundResponse = [] :=
  ⟨((c10_amended ignoreBatchCfg rfl "rpc.response" "llama" (by decide)).1
      failingParse batchItemsFixture rfl rfl).trans rfl,
   ((c10_amended ignoreBatchCfg rfl "rpc.response" "llama" (by decide)).1
      failingParse successItemsFixture rfl rfl).trans rfl,
   (c10_amended ignoreBatchCfg rfl "rpc.response" "llama" (by decide)).2.2.1
      methodNotFoundResponse rfl rfl (.str "rpc.response") (.str "llama")⟩

end AmqpRpc
